import Mathlib

/-!
Shallow Lean embedding of the `supabase_csv_importer` repository, covering
the components referenced by the specification claims:

* `src/modules/file_splitter.py` — `FileSplitter.split_file`
* `src/modules/performance_optimizer.py` — `PerformanceOptimizer._calculate_settings`
  and its helpers
* `src/modules/db_importer.py` — `DatabaseImporter.optimize_for_import`,
  `import_files`, `_import_single_file`, `_import_with_batch_insert`
* `src/modules/progress_tracker.py` — row/byte counters, modelled as the
  multiset of `addRows`/`addBytes` effects emitted by an import run

Modelling conventions:

* A text file is a header line plus a list of body lines; every line carries
  its own terminator, exactly as produced by Python line iteration.  Byte
  counts use the UTF-8 length of the decoded line, matching
  `len(line.encode('utf-8'))` in the source.
* Python `float` arithmetic in the optimizer is modelled over `ℚ`.  All
  multiplier/memory values in the enumerated tables are small dyadic or
  decimal values, and every quantity fed to `int(...)` in the source is at
  distance ≥ 0.2 from the nearest integer (38.4, 44.8, 51.2, 76.8, 89.6,
  102.4, 153.6, 179.2, 204.8, 307.2, 358.4, 409.6, 614.4, 716.8, 819.2,
  1228.8, 1433.6, 1638.4, 2.5, 3.75, 1.5, …), so the double-precision
  rounding error (relative ~1e-16) can never change the truncation and the
  rational model computes the same integers as the Python floats.
* Python `int(x)` (truncation toward zero) is `intTrunc`.
* Stateful database code is modelled by explicit state passing; a failure
  oracle (`Option ℕ`, the index of the statement that raises) models
  exceptions thrown by the database driver; a `try/except` block becomes a
  `match` on an `Except` value.
-/

/-! ## Helpers shared by several components -/

/-- Python `f"{n:04d}"`: decimal rendering of `n`, left-padded with zeros to
at least four characters. -/
def pad4 (n : ℕ) : String :=
  let s := toString n
  if s.length < 4 then String.mk (List.replicate (4 - s.length) '0') ++ s else s

/-- Final path component, i.e. everything after the last `/`
(`PurePath.name` in Python's `pathlib`). -/
def lastComponent (p : String) : String :=
  String.mk ((p.data.reverse.takeWhile (fun c => c ≠ '/')).reverse)

/-- Python `PurePath.stem` applied to a bare file name: the name with its
last dot-suffix removed, where a leading dot alone does not start a suffix
(`Path('.bashrc').stem = '.bashrc'`). -/
def stemOf (name : String) : String :=
  match name.data.reverse.dropWhile (fun c => c ≠ '.') with
  | [] => name
  | _ :: rest => if rest = [] then name else String.mk rest.reverse

/-- Python `PurePath.suffix` without the dot: the characters after the last
dot of the final component, empty when there is no suffix. -/
def extOf (name : String) : String :=
  match name.data.reverse.dropWhile (fun c => c ≠ '.') with
  | [] => ""
  | _ :: rest =>
      if rest = [] then "" else String.mk ((name.data.reverse.takeWhile (fun c => c ≠ '.')).reverse)

/-- Python `pat in hay` on strings: substring containment. -/
def strContains (hay pat : String) : Bool :=
  (List.range (hay.data.length + 1)).any (fun i => List.isPrefixOf pat.data (hay.data.drop i))

/-- Python `int(x)` on a float/rational: truncation toward zero. -/
def intTrunc (q : ℚ) : ℤ :=
  if 0 ≤ q then ⌊q⌋ else -⌊-q⌋

theorem intTrunc_eq_floor (q : ℚ) (h : 0 ≤ q) : intTrunc q = ⌊q⌋ := if_pos h

/-! ## FileSplitter (`src/modules/file_splitter.py`)

`split_file` reads the header line once, then streams the remaining lines,
opening a new chunk whenever no chunk is open or the running byte counter
has reached `chunk_size_mb * 1024 * 1024`; every chunk starts with a copy
of the header, and the chunk file name is
`os.path.join(output_dir, f"{base_name}_chunk_{chunk_num:04d}.csv")`. -/

/-- A chunk file: its path and the lines written to it, in order. -/
structure ChunkFile where
  name : String
  lines : List String
deriving DecidableEq

/-- Loop state of `split_file`: `chunk_num`, `current_chunk_size`, the open
chunk (`current_chunk_file` contents), and the closed chunks in creation
order (`chunk_files` with their final contents). -/
structure SplitState where
  chunkNum : ℕ
  curSize : ℕ
  cur : Option ChunkFile
  done : List ChunkFile
deriving DecidableEq

/-- The chunk path `os.path.join(output_dir, f"{base_name}_chunk_{n:04d}.csv")`. -/
def mkChunkName (outputDir base : String) (n : ℕ) : String :=
  outputDir ++ "/" ++ base ++ "_chunk_" ++ pad4 n ++ ".csv"

/-- One iteration of the `for line in infile` loop of `split_file`. -/
def splitStep (outputDir base : String) (limit : ℕ) (header : String)
    (st : SplitState) (line : String) : SplitState :=
  let st1 :=
    if st.cur = none ∨ limit ≤ st.curSize then
      { chunkNum := st.chunkNum + 1
        curSize := header.utf8ByteSize
        cur := some { name := mkChunkName outputDir base (st.chunkNum + 1), lines := [header] }
        done := st.done ++ st.cur.toList }
    else st
  match st1.cur with
  | some c =>
      { st1 with
        curSize := st1.curSize + line.utf8ByteSize
        cur := some { c with lines := c.lines ++ [line] } }
  | none => st1

/-- Model of `FileSplitter.split_file`: the file is given as its header line plus the
list of remaining lines (each line keeping its terminator); the result is
the ordered list of chunk files with their contents. -/
def split_file (outputDir filePath : String) (chunkSizeMB : ℕ)
    (header : String) (body : List String) : List ChunkFile :=
  let limit := chunkSizeMB * 1024 * 1024
  let base := stemOf (lastComponent filePath)
  let final := body.foldl (splitStep outputDir base limit header) ⟨0, 0, none, []⟩
  final.done ++ final.cur.toList

/-- The body of a chunk: its lines with the duplicated header removed. -/
def chunkBody (c : ChunkFile) : List String := c.lines.drop 1

example : split_file "tmp" "data.txt" 1 "h\n" ["a\n", "b\n"]
    = [⟨"tmp/data_chunk_0001.csv", ["h\n", "a\n", "b\n"]⟩] := by decide

example : split_file "tmp" "data.csv" 0 "h\n" ["a\n", "b\n"]
    = [⟨"tmp/data_chunk_0001.csv", ["h\n", "a\n"]⟩,
       ⟨"tmp/data_chunk_0002.csv", ["h\n", "b\n"]⟩] := by decide

/-! ### Splitter invariants -/

/-- One loop iteration preserves the header/body invariant: every chunk so
far starts with the header, and the concatenated chunk bodies are exactly
the lines processed so far. -/
theorem splitStep_bodyInv (d b : String) (limit : ℕ) (header : String)
    (st : SplitState) (line : String) (acc : List String)
    (hhead : ∀ c ∈ st.done ++ st.cur.toList, ∃ t, c.lines = header :: t)
    (hbody : ((st.done ++ st.cur.toList).map chunkBody).flatten = acc) :
    (∀ c ∈ (splitStep d b limit header st line).done
        ++ (splitStep d b limit header st line).cur.toList, ∃ t, c.lines = header :: t)
    ∧ (((splitStep d b limit header st line).done
        ++ (splitStep d b limit header st line).cur.toList).map chunkBody).flatten
      = acc ++ [line] := by
  by_cases h : st.cur = none ∨ limit ≤ st.curSize
  · simp only [splitStep, if_pos h]
    constructor
    · intro c hc
      rcases List.mem_append.mp hc with h1 | h2
      · exact hhead c h1
      · refine ⟨[line], ?_⟩
        simp only [Option.toList_some, List.mem_singleton] at h2
        simp [h2]
    · simp only [List.map_append, List.flatten_append, hbody.symm]
      simp [chunkBody]
  · push_neg at h
    obtain ⟨hne, hlt⟩ := h
    obtain ⟨c0, hc0⟩ : ∃ c0, st.cur = some c0 := by
      cases hcur : st.cur with
      | none => exact absurd hcur hne
      | some c0 => exact ⟨c0, rfl⟩
    have hcond : ¬(st.cur = none ∨ limit ≤ st.curSize) := by
      push_neg
      exact ⟨hne, hlt⟩
    have hst1 : splitStep d b limit header st line
        = { st with
            curSize := st.curSize + line.utf8ByteSize
            cur := some { c0 with lines := c0.lines ++ [line] } } := by
      simp only [splitStep]
      rw [if_neg hcond, hc0]
    obtain ⟨t0, ht0⟩ := hhead c0 (by simp [hc0])
    rw [hst1]
    constructor
    · intro c hc
      rcases List.mem_append.mp hc with h1 | h2
      · exact hhead c (List.mem_append_left _ h1)
      · refine ⟨t0 ++ [line], ?_⟩
        simp only [Option.toList_some, List.mem_singleton] at h2
        simp [h2, ht0]
    · have hb0 : (st.done.map chunkBody).flatten ++ chunkBody c0 = acc := by
        simpa [hc0] using hbody
      have hupd : chunkBody { c0 with lines := c0.lines ++ [line] }
          = chunkBody c0 ++ [line] := by
        simp [chunkBody, ht0]
      simp only [Option.toList_some, List.map_append, List.flatten_append, hupd]
      simp [← hb0, List.append_assoc]
      exact hupd

/-- The whole splitter loop preserves the header/body invariant. -/
theorem splitFold_bodyInv (d b : String) (limit : ℕ) (header : String) :
    ∀ (body : List String) (st : SplitState) (acc : List String),
      (∀ c ∈ st.done ++ st.cur.toList, ∃ t, c.lines = header :: t) →
      ((st.done ++ st.cur.toList).map chunkBody).flatten = acc →
      (∀ c ∈ (body.foldl (splitStep d b limit header) st).done
          ++ (body.foldl (splitStep d b limit header) st).cur.toList, ∃ t, c.lines = header :: t)
      ∧ (((body.foldl (splitStep d b limit header) st).done
          ++ (body.foldl (splitStep d b limit header) st).cur.toList).map chunkBody).flatten
        = acc ++ body := by
  intro body
  induction body with
  | nil => intro st acc hh hb; exact ⟨hh, by simpa using hb⟩
  | cons line rest ih =>
      intro st acc hh hb
      obtain ⟨hh', hb'⟩ := splitStep_bodyInv d b limit header st line acc hh hb
      obtain ⟨H1, H2⟩ := ih (splitStep d b limit header st line) (acc ++ [line]) hh' hb'
      exact ⟨H1, by simpa [List.append_assoc] using H2⟩

/-- C1: for every source file (header plus body lines) and every chunk size,
`split_file` produces an ordered list of chunks in which every chunk starts
with a copy of the source header, and the concatenation of the chunk bodies
(each chunk with its duplicated header removed), in chunk order, is exactly
the body of the source file with line order preserved. -/
theorem split_file_reconstructs_body (outputDir filePath : String) (chunkSizeMB : ℕ)
    (header : String) (body : List String) :
    (∀ c ∈ split_file outputDir filePath chunkSizeMB header body, ∃ t, c.lines = header :: t)
    ∧ ((split_file outputDir filePath chunkSizeMB header body).map chunkBody).flatten = body := by
  have h := splitFold_bodyInv outputDir (stemOf (lastComponent filePath))
    (chunkSizeMB * 1024 * 1024) header body ⟨0, 0, none, []⟩ [] (by simp) (by simp)
  simpa [split_file] using h

/-- Witness for C1 at a concrete file: splitting a three-line file with a
1 MB budget and re-concatenating the chunk bodies gives back the body, and
the produced chunk starts with the header. -/
theorem split_file_reconstructs_body_witness :
    ((split_file "tmp" "data.csv" 1 "h\n" ["a\n", "b\n"]).map chunkBody).flatten
        = ["a\n", "b\n"]
    ∧ ∃ t, (ChunkFile.mk "tmp/data_chunk_0001.csv" ["h\n", "a\n", "b\n"]).lines = "h\n" :: t :=
  ⟨(split_file_reconstructs_body "tmp" "data.csv" 1 "h\n" ["a\n", "b\n"]).2,
   (split_file_reconstructs_body "tmp" "data.csv" 1 "h\n" ["a\n", "b\n"]).1
     ⟨"tmp/data_chunk_0001.csv", ["h\n", "a\n", "b\n"]⟩ (by decide)⟩

/-- Chunk-name invariant of the splitter loop state: the chunk names so far
are exactly `mkChunkName` at indices `1..chunkNum`. -/
def nameInv (d b : String) (st : SplitState) : Prop :=
  (st.done ++ st.cur.toList).map ChunkFile.name
    = (List.range st.chunkNum).map (fun i => mkChunkName d b (i + 1))

/-- One loop iteration preserves the chunk-name invariant. -/
theorem splitStep_nameInv (d b : String) (limit : ℕ) (header : String)
    (st : SplitState) (line : String) (h : nameInv d b st) :
    nameInv d b (splitStep d b limit header st line) := by
  by_cases hco : st.cur = none ∨ limit ≤ st.curSize
  · simp only [nameInv, splitStep, if_pos hco] at h ⊢
    simp only [List.range_succ, List.map_append, Option.toList_some, ← h]
    simp
  · push_neg at hco
    obtain ⟨hne, hlt⟩ := hco
    obtain ⟨c0, hc0⟩ : ∃ c0, st.cur = some c0 := by
      cases hcur : st.cur with
      | none => exact absurd hcur hne
      | some c0 => exact ⟨c0, rfl⟩
    have hcond : ¬(st.cur = none ∨ limit ≤ st.curSize) := by
      push_neg
      exact ⟨hne, hlt⟩
    have hst1 : splitStep d b limit header st line
        = { st with
            curSize := st.curSize + line.utf8ByteSize
            cur := some { c0 with lines := c0.lines ++ [line] } } := by
      simp only [splitStep]
      rw [if_neg hcond, hc0]
    simp only [nameInv] at h
    simp only [nameInv, hst1]
    simpa [hc0] using h

/-- The whole splitter loop preserves the chunk-name invariant. -/
theorem splitFold_nameInv (d b : String) (limit : ℕ) (header : String) :
    ∀ (body : List String) (st : SplitState), nameInv d b st →
      nameInv d b (body.foldl (splitStep d b limit header) st) := by
  intro body
  induction body with
  | nil => intro st h; simpa using h
  | cons line rest ih =>
      intro st h
      exact ih _ (splitStep_nameInv d b limit header st line h)

/-- C8 (amended): the `i`-th chunk produced by `split_file` is named
`{output_dir}/{stem}_chunk_{i+1 zero-padded to 4 digits}.csv`, with indices
sequential from `0001`; the extension is always `.csv`, independent of the
source file's extension. -/
theorem split_file_chunk_names (outputDir filePath : String) (chunkSizeMB : ℕ)
    (header : String) (body : List String) :
    (split_file outputDir filePath chunkSizeMB header body).map ChunkFile.name
      = (List.range (split_file outputDir filePath chunkSizeMB header body).length).map
          (fun i => mkChunkName outputDir (stemOf (lastComponent filePath)) (i + 1)) := by
  have h := splitFold_nameInv outputDir (stemOf (lastComponent filePath))
    (chunkSizeMB * 1024 * 1024) header body ⟨0, 0, none, []⟩ (by simp [nameInv])
  simp only [nameInv] at h
  have hlen : (split_file outputDir filePath chunkSizeMB header body).length
      = (body.foldl (splitStep outputDir (stemOf (lastComponent filePath))
          (chunkSizeMB * 1024 * 1024) header) ⟨0, 0, none, []⟩).chunkNum := by
    have := congrArg List.length h
    simpa [split_file] using this
  rw [hlen]
  simpa [split_file] using h

/-- C8 counterexample: for the source path `data.txt` the first chunk is
named `data_chunk_0001.csv`, not `data_chunk_0001.txt` as the claimed
naming scheme `{stem}_chunk_{0001}.{ext}` (with `ext` the source file's
extension) would require. -/
theorem split_file_name_ignores_source_ext :
    (split_file "tmp" "data.txt" 1 "h\n" ["x\n"]).map ChunkFile.name
        = ["tmp/data_chunk_0001.csv"]
    ∧ "tmp/" ++ stemOf (lastComponent "data.txt") ++ "_chunk_" ++ pad4 1 ++ "."
          ++ extOf (lastComponent "data.txt")
        = "tmp/data_chunk_0001.txt"
    ∧ ("tmp/data_chunk_0001.csv" : String) ≠ "tmp/data_chunk_0001.txt" := by
  refine ⟨by decide, by decide, by decide⟩

/-! ## PerformanceOptimizer (`src/modules/performance_optimizer.py`)

`_calculate_settings` computes connection-pool, worker, memory, chunk,
batch and timeout settings from an instance spec of the enumerated table,
a performance-level multiplier, and the local machine's CPU core count and
available memory. -/

/-- One row of `PerformanceOptimizer.INSTANCE_SPECS`. -/
structure InstanceSpec where
  name : String
  memory_gb : ℚ
  cpu_cores : ℕ
  tier : String
deriving DecidableEq

/-- The enumerated 11-tier table `PerformanceOptimizer.INSTANCE_SPECS`. -/
def INSTANCE_SPECS : List (ℕ × InstanceSpec) :=
  [(1, ⟨"Nano", 1/2, 1, "shared"⟩),
   (2, ⟨"Micro", 1, 2, "dedicated"⟩),
   (3, ⟨"Small", 2, 2, "dedicated"⟩),
   (4, ⟨"Medium", 4, 2, "dedicated"⟩),
   (5, ⟨"Large", 8, 2, "dedicated"⟩),
   (6, ⟨"XL", 16, 4, "dedicated"⟩),
   (7, ⟨"2XL", 32, 8, "dedicated"⟩),
   (8, ⟨"4XL", 64, 16, "dedicated"⟩),
   (9, ⟨"8XL", 128, 32, "dedicated"⟩),
   (10, ⟨"12XL", 192, 48, "dedicated"⟩),
   (11, ⟨"16XL", 256, 64, "dedicated"⟩)]

/-- One row of `PerformanceOptimizer.PERFORMANCE_LEVELS`. -/
structure PerfLevel where
  name : String
  multiplier : ℚ
deriving DecidableEq

/-- The table `PerformanceOptimizer.PERFORMANCE_LEVELS` (0.5 / 0.75 / 1.0). -/
def PERFORMANCE_LEVELS : List (ℕ × PerfLevel) :=
  [(1, ⟨"Conservative", 1/2⟩), (2, ⟨"Balanced", 3/4⟩), (3, ⟨"Aggressive", 1⟩)]

/-- Model of `PerformanceOptimizer._calculate_work_mem`: `int(memory·1024·(0.05+0.05·m))`
clamped to the 64–1024 MB range by `max(64, min(work_mem, 1024))`. -/
def calculate_work_mem (instance_memory multiplier : ℚ) : ℤ :=
  let base_percent := 1/20 + 1/20 * multiplier
  let work_mem := intTrunc (instance_memory * 1024 * base_percent)
  max 64 (min work_mem 1024)

/-- Model of `PerformanceOptimizer._calculate_chunk_size`. -/
def calculate_chunk_size (instance_memory local_memory multiplier : ℚ) : ℤ :=
  let limiting_memory := min instance_memory (local_memory * (1/2))
  let chunk_size :=
    if limiting_memory < 2 then intTrunc (50 + 50 * multiplier)
    else if limiting_memory < 8 then intTrunc (100 + 100 * multiplier)
    else intTrunc (200 + 300 * multiplier)
  min chunk_size 1000

/-- Model of `PerformanceOptimizer._calculate_batch_size`. -/
def calculate_batch_size (instance_memory multiplier : ℚ) : ℤ :=
  let base : ℚ := if instance_memory < 2 then 1000 else if instance_memory < 8 then 5000 else 10000
  intTrunc (base * (1 + multiplier))

/-- Model of `PerformanceOptimizer._calculate_timeout` (`chunk_size_mb / 50` is
Python true division, hence exact rational division). -/
def calculate_timeout (chunk_size_mb : ℤ) (multiplier : ℚ) : String :=
  let minutes := intTrunc ((chunk_size_mb : ℚ) / 50 * (2 - multiplier) * 10)
  if minutes ≤ 30 then "30min" else if minutes ≤ 60 then "1h" else "2h"

/-- The settings dictionary returned by `_calculate_settings`, flattened:
`database.pool.*`, `import.*` and `optimization.*` keys keep their names
(`work_mem_mb`/`maintenance_work_mem_mb` are the numeric values whose
`"{n}MB"` renderings populate `optimization.work_mem` and
`optimization.maintenance_work_mem`). -/
structure TuningSettings where
  min_connections : ℤ
  max_connections : ℤ
  keepalive : ℕ
  chunk_size_mb : ℤ
  batch_size : ℤ
  parallel_workers : ℤ
  use_copy : Bool
  work_mem_mb : ℤ
  maintenance_work_mem_mb : ℤ
  work_mem : String
  maintenance_work_mem : String
  statement_timeout : String
  disable_triggers : Bool
  run_vacuum : Bool
  run_analyze : Bool
deriving DecidableEq

/-- Model of `PerformanceOptimizer._calculate_settings`, with the local machine
described by its CPU core count and available memory (GB). -/
def calculate_settings (inst : InstanceSpec) (multiplier : ℚ)
    (local_cores : ℕ) (local_memory : ℚ) : TuningSettings :=
  let pair : ℤ × ℤ :=
    if inst.tier = "shared" then
      (intTrunc (5 * multiplier), 1)
    else
      let mc := min (intTrunc (10 + (inst.cpu_cores * 2 : ℚ) * multiplier)) 50
      (mc, min (min (intTrunc ((inst.cpu_cores : ℚ) * multiplier)) ((local_cores : ℤ) - 1)) (mc - 2))
  let max_connections := pair.1
  let parallel_workers := pair.2
  let work_mem := calculate_work_mem inst.memory_gb multiplier
  let maintenance_work_mem := work_mem * 4
  let chunk_size_mb := calculate_chunk_size inst.memory_gb local_memory multiplier
  let batch_size := calculate_batch_size inst.memory_gb multiplier
  let timeout := calculate_timeout chunk_size_mb multiplier
  { min_connections := max 2 parallel_workers
    max_connections := max_connections
    keepalive := 30
    chunk_size_mb := chunk_size_mb
    batch_size := batch_size
    parallel_workers := parallel_workers
    use_copy := true
    work_mem_mb := work_mem
    maintenance_work_mem_mb := maintenance_work_mem
    work_mem := toString work_mem ++ "MB"
    maintenance_work_mem := toString maintenance_work_mem ++ "MB"
    statement_timeout := timeout
    disable_triggers := decide ((1 : ℚ)/2 < multiplier)
    run_vacuum := decide (multiplier < 1)
    run_analyze := true }

/-- Evaluation rule for `intTrunc` on a nonnegative rational with known
integer bounds. -/
theorem intTrunc_of_bounds (q : ℚ) (z : ℤ) (h0 : 0 ≤ q) (h1 : (z : ℚ) ≤ q)
    (h2 : q < z + 1) : intTrunc q = z := by
  rw [intTrunc_eq_floor q h0]
  exact Int.floor_eq_iff.mpr ⟨h1, by exact_mod_cast h2⟩

/-- On the shared tier `_calculate_settings` returns
`int(5 * multiplier)` connections and one worker. -/
theorem calculate_settings_shared (inst : InstanceSpec) (m : ℚ)
    (L : ℕ) (A : ℚ) (h : inst.tier = "shared") :
    (calculate_settings inst m L A).max_connections = intTrunc (5 * m)
    ∧ (calculate_settings inst m L A).parallel_workers = 1 := by
  simp [calculate_settings, h]

/-- On a dedicated tier `_calculate_settings` returns the capped
connection count and the three-way minimum of workers. -/
theorem calculate_settings_dedicated (inst : InstanceSpec) (m : ℚ)
    (L : ℕ) (A : ℚ) (h : ¬inst.tier = "shared") :
    (calculate_settings inst m L A).max_connections
        = min (intTrunc (10 + (inst.cpu_cores * 2 : ℚ) * m)) 50
    ∧ (calculate_settings inst m L A).parallel_workers
        = min (min (intTrunc ((inst.cpu_cores : ℚ) * m)) ((L : ℤ) - 1))
            (min (intTrunc (10 + (inst.cpu_cores * 2 : ℚ) * m)) 50 - 2) := by
  simp [calculate_settings, h]

/-- The memory fields of `_calculate_settings` come from
`_calculate_work_mem` and its quadrupling. -/
theorem calculate_settings_work_mem (inst : InstanceSpec) (m : ℚ) (L : ℕ) (A : ℚ) :
    (calculate_settings inst m L A).work_mem_mb = calculate_work_mem inst.memory_gb m
    ∧ (calculate_settings inst m L A).maintenance_work_mem_mb
        = calculate_work_mem inst.memory_gb m * 4 := by
  by_cases h : inst.tier = "shared" <;> simp [calculate_settings, h]

example : (calculate_settings ⟨"Nano", 1/2, 1, "shared"⟩ 1 8 16).max_connections = 5 := by
  rw [(calculate_settings_shared _ 1 8 16 rfl).1]
  exact intTrunc_of_bounds _ 5 (by norm_num) (by norm_num) (by norm_num)

/-- The three performance levels have multiplier 1/2, 3/4 or 1. -/
theorem perf_multiplier_cases (lvl : ℕ) (p : PerfLevel)
    (hp : (lvl, p) ∈ PERFORMANCE_LEVELS) :
    p.multiplier = 1/2 ∨ p.multiplier = 3/4 ∨ p.multiplier = 1 := by
  simp only [PERFORMANCE_LEVELS, List.mem_cons, List.not_mem_nil, or_false] at hp
  rcases hp with ⟨-, rfl⟩ | ⟨-, rfl⟩ | ⟨-, rfl⟩
  · exact Or.inl rfl
  · exact Or.inr (Or.inl rfl)
  · exact Or.inr (Or.inr rfl)

/-- Every performance-level multiplier is nonnegative (indeed in [1/2, 1]). -/
theorem perf_multiplier_nonneg (lvl : ℕ) (p : PerfLevel)
    (hp : (lvl, p) ∈ PERFORMANCE_LEVELS) : 0 ≤ p.multiplier := by
  rcases perf_multiplier_cases lvl p hp with h | h | h <;> rw [h] <;> norm_num

/-- Every instance of the table has nonnegative memory. -/
theorem instance_memory_nonneg (k : ℕ) (inst : InstanceSpec)
    (hk : (k, inst) ∈ INSTANCE_SPECS) : 0 ≤ inst.memory_gb := by
  have hall : ∀ q ∈ INSTANCE_SPECS, 0 ≤ q.2.memory_gb := by
    intro q hq
    fin_cases hq <;> norm_num
  exact hall (k, inst) hk

theorem intTrunc_five_halves : intTrunc (5 * ((1 : ℚ)/2)) = 2 :=
  intTrunc_of_bounds _ 2 (by norm_num) (by norm_num) (by norm_num)

theorem intTrunc_five_threequarters : intTrunc (5 * ((3 : ℚ)/4)) = 3 :=
  intTrunc_of_bounds _ 3 (by norm_num) (by norm_num) (by norm_num)

theorem intTrunc_five_one : intTrunc (5 * (1 : ℚ)) = 5 :=
  intTrunc_of_bounds _ 5 (by norm_num) (by norm_num) (by norm_num)

/-- C3 (amended): for every profile of the 11-tier table and every
multiplier of the level table, the tuner computes
`max_connections = ⌊5·m⌋` with `parallel_workers = 1` on the shared tier,
and `max_connections = min(⌊10 + 2·cores·m⌋, 50)` with
`parallel_workers = min(⌊cores·m⌋, local_cores − 1, max_connections − 2)`
on the dedicated tier — i.e. the claim with `round` replaced by the
floor/truncation that the code's `int(...)` performs. -/
theorem calculate_settings_connection_formulas (k : ℕ) (inst : InstanceSpec)
    (hk : (k, inst) ∈ INSTANCE_SPECS) (lvl : ℕ) (p : PerfLevel)
    (hp : (lvl, p) ∈ PERFORMANCE_LEVELS) (L : ℕ) (A : ℚ) :
    (inst.tier = "shared" →
      (calculate_settings inst p.multiplier L A).max_connections = ⌊5 * p.multiplier⌋
      ∧ (calculate_settings inst p.multiplier L A).parallel_workers = 1)
    ∧ (inst.tier ≠ "shared" →
      (calculate_settings inst p.multiplier L A).max_connections
          = min ⌊10 + (inst.cpu_cores * 2 : ℚ) * p.multiplier⌋ 50
      ∧ (calculate_settings inst p.multiplier L A).parallel_workers
          = min (min ⌊(inst.cpu_cores : ℚ) * p.multiplier⌋ ((L : ℤ) - 1))
              ((calculate_settings inst p.multiplier L A).max_connections - 2)) := by
  have hm0 : 0 ≤ p.multiplier := perf_multiplier_nonneg lvl p hp
  constructor
  · intro hs
    obtain ⟨h1, h2⟩ := calculate_settings_shared inst p.multiplier L A hs
    refine ⟨?_, h2⟩
    rw [h1, intTrunc_eq_floor _ (mul_nonneg (by norm_num) hm0)]
  · intro hs
    obtain ⟨h1, h2⟩ := calculate_settings_dedicated inst p.multiplier L A hs
    have hge2 : 0 ≤ (inst.cpu_cores : ℚ) * p.multiplier :=
      mul_nonneg (Nat.cast_nonneg _) hm0
    have hge1 : 0 ≤ (10 : ℚ) + (inst.cpu_cores * 2 : ℚ) * p.multiplier := by
      have h := mul_nonneg (mul_nonneg (Nat.cast_nonneg (α := ℚ) inst.cpu_cores)
        (by norm_num : (0:ℚ) ≤ 2)) hm0
      linarith
    refine ⟨?_, ?_⟩
    · rw [h1, intTrunc_eq_floor _ hge1]
    · rw [h2, h1, intTrunc_eq_floor _ hge1, intTrunc_eq_floor _ hge2]

/-- C3 counterexample: the claim's `round` does not match the code. On the
shared tier at multiplier 0.75 the code computes `int(5·0.75) = 3`
connections, while `round(5·0.75) = 4`. -/
theorem calculate_settings_not_round :
    (1, InstanceSpec.mk "Nano" (1/2) 1 "shared") ∈ INSTANCE_SPECS
    ∧ (calculate_settings ⟨"Nano", 1/2, 1, "shared"⟩ (3/4) 8 16).max_connections = 3
    ∧ round ((5 : ℚ) * (3/4)) = 4
    ∧ (3 : ℤ) ≠ 4 := by
  refine ⟨by simp [INSTANCE_SPECS], ?_, ?_, by decide⟩
  · rw [(calculate_settings_shared _ _ 8 16 rfl).1]
    exact intTrunc_of_bounds _ 3 (by norm_num) (by norm_num) (by norm_num)
  · rw [round_eq, show (5 : ℚ) * (3/4) + 1/2 = 17/4 by norm_num]
    exact Int.floor_eq_iff.mpr ⟨by norm_num, by norm_num⟩

/-- Witness for C3 (amended) at the Nano/Conservative table entries. -/
theorem calculate_settings_connection_formulas_witness :
    (calculate_settings ⟨"Nano", 1/2, 1, "shared"⟩
        (PerfLevel.mk "Conservative" (1/2)).multiplier 4 8).max_connections
      = ⌊5 * (PerfLevel.mk "Conservative" (1/2)).multiplier⌋
    ∧ (calculate_settings ⟨"Nano", 1/2, 1, "shared"⟩
        (PerfLevel.mk "Conservative" (1/2)).multiplier 4 8).parallel_workers = 1 :=
  (calculate_settings_connection_formulas 1 ⟨"Nano", 1/2, 1, "shared"⟩
    (by simp [INSTANCE_SPECS]) 1 ⟨"Conservative", 1/2⟩
    (by simp [PERFORMANCE_LEVELS]) 4 8).1 rfl

/-- C6 (amended): for every (hardware, level) pair of the enumerated table
(11 tiers × 3 levels) the computed settings satisfy `max_connections ≤ 50`
and `parallel_workers ≤ max_connections − 1` for every local machine,
while `parallel_workers ≤ local cores − 1` holds on the dedicated tier for
every local machine and on the shared tier only when the local machine has
at least 2 cores (the shared tier pins `parallel_workers = 1` regardless of
the local core count). -/
theorem tuning_profile_invariants (k : ℕ) (inst : InstanceSpec)
    (hk : (k, inst) ∈ INSTANCE_SPECS) (lvl : ℕ) (p : PerfLevel)
    (hp : (lvl, p) ∈ PERFORMANCE_LEVELS) (L : ℕ) (A : ℚ) :
    (calculate_settings inst p.multiplier L A).max_connections ≤ 50
    ∧ (calculate_settings inst p.multiplier L A).parallel_workers
        ≤ (calculate_settings inst p.multiplier L A).max_connections - 1
    ∧ (inst.tier ≠ "shared" →
        (calculate_settings inst p.multiplier L A).parallel_workers ≤ (L : ℤ) - 1)
    ∧ (2 ≤ L →
        (calculate_settings inst p.multiplier L A).parallel_workers ≤ (L : ℤ) - 1) := by
  have hm := perf_multiplier_cases lvl p hp
  by_cases hs : inst.tier = "shared"
  · obtain ⟨h1, h2⟩ := calculate_settings_shared inst p.multiplier L A hs
    have hval : (calculate_settings inst p.multiplier L A).max_connections = 2
        ∨ (calculate_settings inst p.multiplier L A).max_connections = 3
        ∨ (calculate_settings inst p.multiplier L A).max_connections = 5 := by
      rcases hm with h | h | h
      · exact Or.inl (by rw [h1, h, intTrunc_five_halves])
      · exact Or.inr (Or.inl (by rw [h1, h, intTrunc_five_threequarters]))
      · exact Or.inr (Or.inr (by rw [h1, h, intTrunc_five_one]))
    refine ⟨?_, ?_, fun hc => absurd hs hc, fun hL => ?_⟩
    · rcases hval with h | h | h <;> rw [h] <;> decide
    · rw [h2]
      rcases hval with h | h | h <;> rw [h] <;> decide
    · rw [h2]
      omega
  · obtain ⟨h1, h2⟩ := calculate_settings_dedicated inst p.multiplier L A hs
    refine ⟨?_, ?_, fun _ => ?_, fun _ => ?_⟩
    · rw [h1]
      exact min_le_right _ _
    · rw [h2, h1]
      have h := min_le_right
        (min (intTrunc ((inst.cpu_cores : ℚ) * p.multiplier)) ((L : ℤ) - 1))
        (min (intTrunc (10 + (inst.cpu_cores * 2 : ℚ) * p.multiplier)) 50 - 2)
      omega
    · rw [h2]
      exact le_trans (min_le_left _ _) (min_le_right _ _)
    · rw [h2]
      exact le_trans (min_le_left _ _) (min_le_right _ _)

/-- C6 counterexample: on a single-core local machine the shared tier still
gets `parallel_workers = 1`, violating `parallel_workers ≤ local cores − 1`. -/
theorem shared_workers_exceed_single_core :
    (1, InstanceSpec.mk "Nano" (1/2) 1 "shared") ∈ INSTANCE_SPECS
    ∧ (calculate_settings ⟨"Nano", 1/2, 1, "shared"⟩ (1/2) 1 16).parallel_workers = 1
    ∧ ¬((calculate_settings ⟨"Nano", 1/2, 1, "shared"⟩ (1/2) 1 16).parallel_workers
          ≤ ((1 : ℕ) : ℤ) - 1) := by
  have h2 := (calculate_settings_shared ⟨"Nano", 1/2, 1, "shared"⟩ (1/2) 1 16 rfl).2
  refine ⟨by simp [INSTANCE_SPECS], h2, ?_⟩
  rw [h2]
  decide

/-- Witness for C6 (amended) at the Micro/Balanced table entries. -/
theorem tuning_profile_invariants_witness :
    (calculate_settings ⟨"Micro", 1, 2, "dedicated"⟩
        (PerfLevel.mk "Balanced" (3/4)).multiplier 8 16).max_connections ≤ 50
    ∧ (calculate_settings ⟨"Micro", 1, 2, "dedicated"⟩
        (PerfLevel.mk "Balanced" (3/4)).multiplier 8 16).parallel_workers
        ≤ (calculate_settings ⟨"Micro", 1, 2, "dedicated"⟩
            (PerfLevel.mk "Balanced" (3/4)).multiplier 8 16).max_connections - 1
    ∧ ((InstanceSpec.mk "Micro" 1 2 "dedicated").tier ≠ "shared" →
        (calculate_settings ⟨"Micro", 1, 2, "dedicated"⟩
            (PerfLevel.mk "Balanced" (3/4)).multiplier 8 16).parallel_workers
          ≤ ((8 : ℕ) : ℤ) - 1)
    ∧ (2 ≤ 8 →
        (calculate_settings ⟨"Micro", 1, 2, "dedicated"⟩
            (PerfLevel.mk "Balanced" (3/4)).multiplier 8 16).parallel_workers
          ≤ ((8 : ℕ) : ℤ) - 1) :=
  tuning_profile_invariants 2 ⟨"Micro", 1, 2, "dedicated"⟩ (by simp [INSTANCE_SPECS])
    2 ⟨"Balanced", 3/4⟩ (by simp [PERFORMANCE_LEVELS]) 8 16

/-- C7 (amended): for every instance of the tier table and every level
multiplier, `work_mem_mb = clamp(⌊instance_memory_gb·1024·(0.05+0.05·m)⌋, 64, 1024)`
and `maintenance_work_mem = 4·work_mem_mb` — i.e. the claim with `round`
replaced by the floor/truncation the code's `int(...)` performs. -/
theorem calculate_work_mem_formula (k : ℕ) (inst : InstanceSpec)
    (hk : (k, inst) ∈ INSTANCE_SPECS) (lvl : ℕ) (p : PerfLevel)
    (hp : (lvl, p) ∈ PERFORMANCE_LEVELS) (L : ℕ) (A : ℚ) :
    (calculate_settings inst p.multiplier L A).work_mem_mb
        = min (max ⌊inst.memory_gb * 1024 * (1/20 + 1/20 * p.multiplier)⌋ 64) 1024
    ∧ (calculate_settings inst p.multiplier L A).maintenance_work_mem_mb
        = 4 * (calculate_settings inst p.multiplier L A).work_mem_mb := by
  obtain ⟨h1, h2⟩ := calculate_settings_work_mem inst p.multiplier L A
  have hm0 : 0 ≤ p.multiplier := perf_multiplier_nonneg lvl p hp
  have hmem : 0 ≤ inst.memory_gb := instance_memory_nonneg k inst hk
  have hq : 0 ≤ inst.memory_gb * 1024 * (1/20 + 1/20 * p.multiplier) := by
    have : (0 : ℚ) ≤ 1/20 + 1/20 * p.multiplier := by
      have := mul_nonneg (by norm_num : (0:ℚ) ≤ 1/20) hm0
      linarith
    exact mul_nonneg (mul_nonneg hmem (by norm_num)) this
  refine ⟨?_, ?_⟩
  · rw [h1]
    simp only [calculate_work_mem]
    rw [intTrunc_eq_floor _ hq]
    omega
  · rw [h2, h1, Int.mul_comm]

/-- C7 counterexample: the claim's `round` does not match the code. For the
Micro instance (1 GB) at multiplier 0.5 the raw value is 76.8 MB; the code
computes `int(76.8) = 76` while the claimed `clamp(round(76.8), 64, 1024)`
is 77. -/
theorem calculate_work_mem_not_round :
    (2, InstanceSpec.mk "Micro" 1 2 "dedicated") ∈ INSTANCE_SPECS
    ∧ (calculate_settings ⟨"Micro", 1, 2, "dedicated"⟩ (1/2) 8 16).work_mem_mb = 76
    ∧ min (max (round ((1 : ℚ) * 1024 * (1/20 + 1/20 * (1/2)))) 64) 1024 = 77
    ∧ (76 : ℤ) ≠ 77 := by
  refine ⟨by simp [INSTANCE_SPECS], ?_, ?_, by decide⟩
  · rw [(calculate_settings_work_mem ⟨"Micro", 1, 2, "dedicated"⟩ (1/2) 8 16).1]
    simp only [calculate_work_mem]
    rw [show intTrunc ((1 : ℚ) * 1024 * (1/20 + 1/20 * (1/2))) = 76 from
      intTrunc_of_bounds _ 76 (by norm_num) (by norm_num) (by norm_num)]
    decide
  · rw [round_eq, show (1 : ℚ) * 1024 * (1/20 + 1/20 * (1/2)) + 1/2 = 773/10 by norm_num]
    rw [show ⌊(773 : ℚ)/10⌋ = 77 from Int.floor_eq_iff.mpr ⟨by norm_num, by norm_num⟩]
    decide

/-- Witness for C7 (amended) at the Micro/Conservative table entries. -/
theorem calculate_work_mem_formula_witness :
    (calculate_settings ⟨"Micro", 1, 2, "dedicated"⟩
        (PerfLevel.mk "Conservative" (1/2)).multiplier 8 16).work_mem_mb
      = min (max ⌊(InstanceSpec.mk "Micro" 1 2 "dedicated").memory_gb * 1024
          * (1/20 + 1/20 * (PerfLevel.mk "Conservative" (1/2)).multiplier)⌋ 64) 1024
    ∧ (calculate_settings ⟨"Micro", 1, 2, "dedicated"⟩
        (PerfLevel.mk "Conservative" (1/2)).multiplier 8 16).maintenance_work_mem_mb
      = 4 * (calculate_settings ⟨"Micro", 1, 2, "dedicated"⟩
          (PerfLevel.mk "Conservative" (1/2)).multiplier 8 16).work_mem_mb :=
  calculate_work_mem_formula 2 ⟨"Micro", 1, 2, "dedicated"⟩ (by simp [INSTANCE_SPECS])
    1 ⟨"Conservative", 1/2⟩ (by simp [PERFORMANCE_LEVELS]) 8 16

/-! ## DatabaseImporter.optimize_for_import (`src/modules/db_importer.py`)

The method snapshots four current session settings with one SELECT, applies
six hard-coded/configured SET statements, optionally disables triggers, and
commits; the whole body is wrapped in `try/except`, and on any exception it
rolls back and returns normally.  Statements are numbered 0 (the snapshot
SELECT), 1–6 (the SETs), 7 (the optional ALTER TABLE) and
`(number of statements) + 1` (the COMMIT); the failure oracle `failAt`
names the statement whose execution raises. -/

/-- The `config['optimization']` dictionary fields read by the importer. -/
structure OptimizationConfig where
  work_mem : String
  maintenance_work_mem : String
  statement_timeout : Option String
  disable_triggers : Bool
  run_vacuum : Bool
  run_analyze : Bool
deriving DecidableEq

/-- The database session settings touched by `optimize_for_import`,
plus the trigger state of the target table. -/
structure SessionState where
  work_mem : String
  maintenance_work_mem : String
  checkpoint_completion_target : String
  synchronous_commit : String
  wal_writer_delay : String
  statement_timeout : String
  triggersEnabled : Bool
deriving DecidableEq

/-- The four settings captured by the snapshot SELECT
(`self.original_settings`). -/
structure SettingsSnapshot where
  work_mem : String
  maintenance_work_mem : String
  checkpoint_completion_target : String
  statement_timeout : String
deriving DecidableEq

/-- The snapshot SELECT of `optimize_for_import`. -/
def takeSnapshot (s : SessionState) : SettingsSnapshot :=
  ⟨s.work_mem, s.maintenance_work_mem, s.checkpoint_completion_target, s.statement_timeout⟩

/-- The SET/ALTER statements issued by `optimize_for_import`, in order:
hard-coded `work_mem = '256MB'`, `maintenance_work_mem = '1GB'`,
`checkpoint_completion_target = 0.9`, `synchronous_commit = OFF`,
`wal_writer_delay = '200ms'`, the configured
`statement_timeout` (default `'30min'`), then `ALTER TABLE … DISABLE
TRIGGER ALL` when `disable_triggers` is configured. -/
def sessionStatements (cfg : OptimizationConfig) : List (SessionState → SessionState) :=
  [fun s => { s with work_mem := "256MB" },
   fun s => { s with maintenance_work_mem := "1GB" },
   fun s => { s with checkpoint_completion_target := "0.9" },
   fun s => { s with synchronous_commit := "OFF" },
   fun s => { s with wal_writer_delay := "200ms" },
   fun s => { s with statement_timeout := cfg.statement_timeout.getD "30min" }]
  ++ (if cfg.disable_triggers then [fun s => { s with triggersEnabled := false }] else [])

/-- Execute a statement list starting at statement index `i`; the statement
whose index equals the failure oracle raises. -/
def runStatements : List (SessionState → SessionState) → ℕ → Option ℕ → SessionState →
    Except Unit SessionState
  | [], _, _, s => Except.ok s
  | op :: rest, i, failAt, s =>
      if failAt = some i then Except.error () else runStatements rest (i + 1) failAt (op s)

/-- The `try` body of `optimize_for_import`: snapshot, statements, commit. -/
def optimizeBody (cfg : OptimizationConfig) (db : SessionState) (failAt : Option ℕ) :
    Except Unit (SessionState × SettingsSnapshot) :=
  if failAt = some 0 then Except.error ()
  else
    match runStatements (sessionStatements cfg) 1 failAt db with
    | Except.error e => Except.error e
    | Except.ok pending =>
        if failAt = some ((sessionStatements cfg).length + 1) then Except.error ()
        else Except.ok (pending, takeSnapshot db)

/-- Model of `DatabaseImporter.optimize_for_import`: on success the pending session
state is committed and the snapshot retained; on any exception the
transaction is rolled back (committed state unchanged) and the method
still returns normally — the exception never propagates. -/
def optimize_for_import (cfg : OptimizationConfig) (db : SessionState)
    (failAt : Option ℕ) : SessionState × Option SettingsSnapshot :=
  match optimizeBody cfg db failAt with
  | Except.ok (s, snap) => (s, some snap)
  | Except.error _ => (db, none)

/-- No statement of the run raises: the oracle names no index up to and
including the commit. -/
def noFailure (cfg : OptimizationConfig) (failAt : Option ℕ) : Prop :=
  ∀ k, failAt = some k → (sessionStatements cfg).length + 1 < k

/-- A statement whose index lies in the executed range makes the run raise. -/
theorem runStatements_fail :
    ∀ (ops : List (SessionState → SessionState)) (i k : ℕ) (s : SessionState),
      i ≤ k → k < i + ops.length → runStatements ops i (some k) s = Except.error () := by
  intro ops
  induction ops with
  | nil => intro i k s h1 h2; simp at h2; omega
  | cons op rest ih =>
      intro i k s h1 h2
      by_cases hik : k = i
      · subst hik
        simp [runStatements]
      · rw [runStatements, if_neg (by simp; omega)]
        refine ih (i + 1) k (op s) (by omega) ?_
        simp only [List.length_cons] at h2
        omega

/-- When the oracle points outside the executed range, the run applies all
statements in order. -/
theorem runStatements_ok :
    ∀ (ops : List (SessionState → SessionState)) (i : ℕ) (failAt : Option ℕ) (s : SessionState),
      (∀ k, failAt = some k → k < i ∨ i + ops.length ≤ k) →
      runStatements ops i failAt s = Except.ok (ops.foldl (fun t op => op t) s) := by
  intro ops
  induction ops with
  | nil => intro i failAt s _; rfl
  | cons op rest ih =>
      intro i failAt s h
      rw [runStatements, if_neg]
      · refine ih (i + 1) failAt (op s) (fun k hk => ?_)
        rcases h k hk with h1 | h1
        · omega
        · simp only [List.length_cons] at h1
          omega
      · intro hc
        rcases h i hc with h1 | h1
        · omega
        · simp only [List.length_cons] at h1
          omega

/-- Applying all statements of `optimize_for_import` in order sets the five
hard-coded session parameters, the configured statement timeout, and clears
the trigger flag exactly when `disable_triggers` is configured. -/
theorem sessionStatements_foldl (cfg : OptimizationConfig) (db : SessionState) :
    (sessionStatements cfg).foldl (fun t op => op t) db
      = { work_mem := "256MB", maintenance_work_mem := "1GB",
          checkpoint_completion_target := "0.9", synchronous_commit := "OFF",
          wal_writer_delay := "200ms",
          statement_timeout := cfg.statement_timeout.getD "30min",
          triggersEnabled := db.triggersEnabled && !cfg.disable_triggers } := by
  by_cases h : cfg.disable_triggers <;> simp [sessionStatements, h]

/-- C2 (amended): when optimization runs, `optimize_for_import` snapshots
the current session settings and applies fixed session parameters —
`work_mem = '256MB'`, `maintenance_work_mem = '1GB'`,
`checkpoint_completion_target = 0.9`, `synchronous_commit = OFF`,
`wal_writer_delay = '200ms'` — together with the profile's
`statement_timeout` (default `'30min'`) and its optional trigger
disabling, all committed atomically; on any failure the transaction is
rolled back (the committed session state is unchanged) and the method
returns normally, so the overall job is not aborted.  (The claim's
assertion that the profile's `work_mem`/`maintenance_work_mem` are applied
is false: those two values are hard-coded.) -/
theorem optimize_for_import_behaviour (cfg : OptimizationConfig) (db : SessionState)
    (failAt : Option ℕ) :
    (noFailure cfg failAt →
      optimize_for_import cfg db failAt
        = ({ work_mem := "256MB", maintenance_work_mem := "1GB",
             checkpoint_completion_target := "0.9", synchronous_commit := "OFF",
             wal_writer_delay := "200ms",
             statement_timeout := cfg.statement_timeout.getD "30min",
             triggersEnabled := db.triggersEnabled && !cfg.disable_triggers },
           some (takeSnapshot db)))
    ∧ (¬noFailure cfg failAt → optimize_for_import cfg db failAt = (db, none)) := by
  constructor
  · intro hnf
    have h0 : ¬(failAt = some 0) := fun h => by have := hnf 0 h; omega
    have hrun : runStatements (sessionStatements cfg) 1 failAt db
        = Except.ok ((sessionStatements cfg).foldl (fun t op => op t) db) :=
      runStatements_ok _ 1 failAt db (fun k hk => Or.inr (by have := hnf k hk; omega))
    have hcommit : ¬(failAt = some ((sessionStatements cfg).length + 1)) :=
      fun h => by have := hnf _ h; omega
    simp [optimize_for_import, optimizeBody, h0, hrun, hcommit, sessionStatements_foldl]
  · intro hnf
    simp only [noFailure, not_forall] at hnf
    obtain ⟨k, hk⟩ := hnf
    obtain ⟨hfa, hle⟩ := hk
    push_neg at hle
    by_cases hk0 : k = 0
    · subst hk0
      simp [optimize_for_import, optimizeBody, hfa]
    · by_cases hkl : k ≤ (sessionStatements cfg).length
      · have hrun : runStatements (sessionStatements cfg) 1 failAt db = Except.error () := by
          rw [hfa]
          exact runStatements_fail _ 1 k db (by omega) (by omega)
        have h0 : ¬(failAt = some 0) := by
          rw [hfa]
          simp
          omega
        simp [optimize_for_import, optimizeBody, h0, hrun]
      · have hkeq : k = (sessionStatements cfg).length + 1 := by omega
        have hrun : runStatements (sessionStatements cfg) 1 failAt db
            = Except.ok ((sessionStatements cfg).foldl (fun t op => op t) db) := by
          refine runStatements_ok _ 1 failAt db (fun q hq => ?_)
          rw [hfa] at hq
          have : q = k := (Option.some.inj hq).symm
          omega
        have h0 : ¬(failAt = some 0) := by
          rw [hfa]
          simp
          omega
        have hc : failAt = some ((sessionStatements cfg).length + 1) := by
          rw [hfa, hkeq]
        rw [hc] at hrun
        simp [optimize_for_import, optimizeBody, h0, hrun, hc]

/-- The optimization config produced by a tuning profile whose computed
work_mem is 76 MB (Micro instance, conservative level). -/
def cfgProfile76 : OptimizationConfig :=
  ⟨"76MB", "304MB", some "30min", false, true, true⟩

/-- A session state before optimization. -/
def dbBefore : SessionState :=
  ⟨"4MB", "64MB", "0.5", "on", "200ms", "2min", true⟩

/-- C2 counterexample: the profile's session parameters are not applied.
With a profile whose `work_mem` is `'76MB'`, a fully successful
`optimize_for_import` leaves the session with the hard-coded `'256MB'`,
not the profile's value. -/
theorem optimize_for_import_ignores_profile_work_mem :
    (optimize_for_import cfgProfile76 dbBefore none).1.work_mem = "256MB"
    ∧ cfgProfile76.work_mem = "76MB"
    ∧ (optimize_for_import cfgProfile76 dbBefore none).1.work_mem ≠ cfgProfile76.work_mem
    ∧ (optimize_for_import cfgProfile76 dbBefore none).1.maintenance_work_mem = "1GB"
    ∧ cfgProfile76.maintenance_work_mem = "304MB" := by
  exact ⟨by decide, rfl, by decide, by decide, rfl⟩

/-- Witness for C2 (amended): a failing run (the oracle raises at the first
SET) leaves the committed session state unchanged and still returns. -/
theorem optimize_for_import_behaviour_witness :
    optimize_for_import cfgProfile76 dbBefore (some 1) = (dbBefore, none) :=
  (optimize_for_import_behaviour cfgProfile76 dbBefore (some 1)).2
    (fun h => by have := h 1 rfl; simp [sessionStatements, cfgProfile76] at this)

/-! ## Import orchestration (`src/modules/db_importer.py`)

`import_files` dispatches per-file imports and reports job success as
`success_count == len(file_paths)`.  `_import_single_file` acquires a
connection, sets a statement timeout and streams the file through COPY; on
success it commits and records rows and bytes in the `ProgressTracker`; on
an exception it rolls back and, when the message contains `"COPY"`, makes a
single fallback attempt via `_import_with_batch_insert`, which buffers CSV
records into batches of `batch_size`, issues one multi-row INSERT per batch
(recording rows per batch), and commits at the end.  The observable
side effects of a run are modelled as an event trace; the per-file
environment carries the file's size, its CSV data records, the outcome of
`copy_expert` (driver row count or error message), and the index of the
fallback batch whose INSERT raises, if any. -/

/-- A CSV data record as produced by `csv.DictReader` (one row of fields). -/
abbrev Row := List String

/-- Observable effects of an import run: pool checkout/checkin, the
statement-timeout SET, the COPY attempt, transaction commit/rollback,
`ProgressTracker.add_rows`/`add_bytes`, one multi-row INSERT per batch, and
entry into the batch-INSERT fallback. -/
inductive Ev where
  | getconn : Ev
  | putconn : Ev
  | setTimeout : Ev
  | copyAttempt (path : String) : Ev
  | commitEv : Ev
  | rollbackEv : Ev
  | addRows (n : ℕ) : Ev
  | addBytes (n : ℕ) : Ev
  | insertBatch (n : ℕ) : Ev
  | fallbackStart (path : String) : Ev
deriving DecidableEq

deriving instance DecidableEq for Except

/-- Per-file environment: path, `os.path.getsize`, the parsed data rows,
the outcome of `copy_expert` (`ok` with the driver row count, or an error
message), and the index of the fallback batch whose INSERT raises (an index
at or beyond the batch count means the fallback succeeds). -/
structure FileEnv where
  path : String
  size : ℕ
  rows : List Row
  copyResult : Except String ℕ
  fallbackFailAt : Option ℕ
deriving DecidableEq

/-- The batch-buffering loop of `_import_with_batch_insert`: append each
record to the current batch and flush once `len(batch) >= batch_size`;
a nonempty remainder is flushed at the end. -/
def batchChunks (batchSize : ℕ) : List Row → List Row → List (List Row)
  | [], batch => if batch.isEmpty then [] else [batch]
  | r :: rest, batch =>
      if batchSize ≤ (batch ++ [r]).length then
        (batch ++ [r]) :: batchChunks batchSize rest []
      else
        batchChunks batchSize rest (batch ++ [r])

/-- Events of one flushed batch: the multi-row INSERT then
`progress.add_rows(len(batch))`. -/
def batchEvents (b : List Row) : List Ev :=
  [Ev.insertBatch b.length, Ev.addRows b.length]

/-- Model of `DatabaseImporter._import_with_batch_insert` on an open connection:
returns the method's boolean result and its event trace.  When the oracle
interrupts the run at batch index `k`, the batches before `k` were already
inserted and counted, and the `except` clause rolls back. -/
def import_with_batch_insert (batchSize : ℕ) (f : FileEnv) : Bool × List Ev :=
  let batches := batchChunks batchSize f.rows []
  match f.fallbackFailAt with
  | some k =>
      if k < batches.length then
        (false, ((batches.take k).map batchEvents).flatten ++ [Ev.rollbackEv])
      else
        (true, (batches.map batchEvents).flatten ++ [Ev.commitEv])
  | none => (true, (batches.map batchEvents).flatten ++ [Ev.commitEv])

/-- Model of `DatabaseImporter._import_single_file`: COPY, and on an exception whose
message contains `"COPY"` a single batch-INSERT fallback; the connection is
returned on every path. -/
def import_single_file (batchSize : ℕ) (f : FileEnv) : Bool × List Ev :=
  match f.copyResult with
  | Except.ok n =>
      (true, [Ev.getconn, Ev.setTimeout, Ev.copyAttempt f.path, Ev.commitEv,
              Ev.addRows n, Ev.addBytes f.size, Ev.putconn])
  | Except.error msg =>
      if strContains msg "COPY" then
        let r := import_with_batch_insert batchSize f
        (r.1, [Ev.getconn, Ev.setTimeout, Ev.copyAttempt f.path, Ev.rollbackEv,
               Ev.fallbackStart f.path] ++ r.2 ++ [Ev.putconn])
      else
        (false, [Ev.getconn, Ev.setTimeout, Ev.copyAttempt f.path, Ev.rollbackEv, Ev.putconn])

/-- Model of `DatabaseImporter._import_files_sequential`: every file is processed in
order regardless of earlier failures; the boolean result is
`success_count == len(file_paths)`. -/
def import_files_sequential (batchSize : ℕ) (files : List FileEnv) : Bool × List Ev :=
  (files.countP (fun f => (import_single_file batchSize f).1) == files.length,
   (files.map (fun f => (import_single_file batchSize f).2)).flatten)

/-- Model of `DatabaseImporter.import_files`, caller-visible value only: `True` for
an empty list, otherwise the dispatch result.  The parallel branch submits
`_import_single_file` for every file and counts successful futures, so its
job-level boolean equals the sequential one; completion order only permutes
the interleaving of the trace, which the boolean does not observe. -/
def import_files (batchSize : ℕ) (useParallel : Bool) (files : List FileEnv) : Bool :=
  if files.isEmpty then true
  else if useParallel && files.length > 1 then
    files.countP (fun f => (import_single_file batchSize f).1) == files.length
  else
    (import_files_sequential batchSize files).1

/-- Model of `import_files` with its sequential event trace (empty input returns
before any work). -/
def import_files_run (batchSize : ℕ) (files : List FileEnv) : Bool × List Ev :=
  if files.isEmpty then (true, [])
  else import_files_sequential batchSize files

/-- Total rows recorded in the `ProgressTracker` by a trace. -/
def rowsAdded (tr : List Ev) : ℕ :=
  (tr.map (fun e => match e with | Ev.addRows n => n | _ => 0)).sum

/-- Total bytes recorded in the `ProgressTracker` by a trace. -/
def bytesAdded (tr : List Ev) : ℕ :=
  (tr.map (fun e => match e with | Ev.addBytes n => n | _ => 0)).sum

/-- Whether the COPY path itself succeeded for this file. -/
def copyOk (f : FileEnv) : Bool :=
  match f.copyResult with
  | Except.ok _ => true
  | Except.error _ => false

example : strContains "error in COPY command" "COPY" = true := by decide

example : strContains "connection reset" "COPY" = false := by decide

example : batchChunks 2 [["a"], ["b"], ["c"]] [] = [[["a"], ["b"]], [["c"]]] := by decide

example :
    import_single_file 2
      ⟨"a.csv", 9, [["x"], ["y"], ["z"]], Except.error "COPY failed", none⟩
    = (true, [Ev.getconn, Ev.setTimeout, Ev.copyAttempt "a.csv", Ev.rollbackEv,
              Ev.fallbackStart "a.csv", Ev.insertBatch 2, Ev.addRows 2,
              Ev.insertBatch 1, Ev.addRows 1, Ev.commitEv, Ev.putconn]) := by decide

/-- C9: calling `import_files` with an empty file list returns job-level
success (`True`) without attempting any load, acquiring any connection, or
touching the `ProgressTracker` — the run's event trace is empty. -/
theorem import_files_empty (batchSize : ℕ) (useParallel : Bool) :
    import_files batchSize useParallel [] = true
    ∧ (import_files_run batchSize []).2 = [] := by
  exact ⟨rfl, rfl⟩

/-- C4 (amended): the job-level result of `import_files` is success iff
every individual file import succeeded; the caller receives only this
boolean (per-file detail is logged, not returned). -/
theorem import_files_success_iff (batchSize : ℕ) (useParallel : Bool)
    (files : List FileEnv) :
    import_files batchSize useParallel files = true
      ↔ ∀ f ∈ files, (import_single_file batchSize f).1 = true := by
  unfold import_files import_files_sequential
  by_cases he : files.isEmpty
  · rw [List.isEmpty_iff] at he
    simp [he]
  · by_cases hp : useParallel && decide (files.length > 1) <;>
      simp [he, hp, beq_iff_eq, List.countP_eq_length]

/-- A file whose COPY fails with a non-COPY-characteristic message. -/
def envCopyFail : FileEnv := ⟨"a.csv", 10, [], Except.error "boom", none⟩

/-- A file whose COPY succeeds with 5 driver-reported rows. -/
def envCopyOk : FileEnv := ⟨"b.csv", 10, [], Except.ok 5, none⟩

/-- C4 counterexample: no per-file `ImportOutcome` list is returned to the
caller — `import_files` returns a single boolean, and two jobs whose
per-file outcomes differ (first file failed vs second file failed) yield
identical caller-visible results. -/
theorem import_files_returns_only_boolean :
    import_files 10 false [envCopyFail, envCopyOk]
        = import_files 10 false [envCopyOk, envCopyFail]
    ∧ [envCopyFail, envCopyOk].map (fun f => (import_single_file 10 f).1)
        ≠ [envCopyOk, envCopyFail].map (fun f => (import_single_file 10 f).1) := by
  exact ⟨by decide, by decide⟩

/-- Witness for C4 (amended): a one-file job whose only file succeeds via
COPY reports job-level success. -/
theorem import_files_success_iff_witness :
    import_files 10 false [envCopyOk] = true :=
  (import_files_success_iff 10 false [envCopyOk]).mpr (by decide)

/-- Recognizer for the fallback-entry event. -/
def isFallbackStart : Ev → Bool
  | Ev.fallbackStart _ => true
  | _ => false

/-- Batch traces contain only INSERT and row-count events. -/
theorem mem_batchTrace_not_fallback (batches : List (List Row)) (e : Ev)
    (he : e ∈ (batches.map batchEvents).flatten) : isFallbackStart e = false := by
  rw [List.mem_flatten] at he
  obtain ⟨l, hl, hel⟩ := he
  rw [List.mem_map] at hl
  obtain ⟨b, -, rfl⟩ := hl
  simp only [batchEvents, List.mem_cons, List.mem_singleton, List.not_mem_nil, or_false] at hel
  rcases hel with rfl | rfl <;> rfl

/-- The batch-INSERT fallback never re-enters the fallback: its trace has
no fallback-entry event. -/
theorem import_with_batch_insert_no_fallback (batchSize : ℕ) (f : FileEnv) :
    (import_with_batch_insert batchSize f).2.countP isFallbackStart = 0 := by
  rw [List.countP_eq_zero]
  intro e he
  simp only [Bool.not_eq_true]
  unfold import_with_batch_insert at he
  cases hfa : f.fallbackFailAt with
  | none =>
      rw [hfa] at he
      simp only [List.mem_append, List.mem_singleton] at he
      rcases he with he | rfl
      · exact mem_batchTrace_not_fallback _ e he
      · rfl
  | some k =>
      rw [hfa] at he
      by_cases hk : k < (batchChunks batchSize f.rows []).length <;>
        simp only [hk, if_true, if_false, List.mem_append, List.mem_singleton] at he
      · rcases he with he | rfl
        · exact mem_batchTrace_not_fallback _ e he
        · rfl
      · rcases he with he | rfl
        · exact mem_batchTrace_not_fallback _ e he
        · rfl

/-- With a positive batch size, every batch emitted by the buffering loop
is nonempty and holds at most `batch_size` records (an invariant of the
loop: the open buffer always holds fewer than `batch_size` records). -/
theorem batchChunks_length_le (batchSize : ℕ) (hbs : 1 ≤ batchSize) :
    ∀ (rows : List Row) (batch : List Row), batch.length < batchSize →
      ∀ b ∈ batchChunks batchSize rows batch, 1 ≤ b.length ∧ b.length ≤ batchSize := by
  intro rows
  induction rows with
  | nil =>
      intro batch hlt b hb
      simp only [batchChunks] at hb
      by_cases he : batch.isEmpty
      · simp [he] at hb
      · rw [if_neg he] at hb
        rw [List.mem_singleton] at hb
        subst hb
        rw [List.isEmpty_iff] at he
        have : b ≠ [] := he
        constructor
        · cases b with
          | nil => exact absurd rfl this
          | cons x t => simp
        · omega
  | cons r rest ih =>
      intro batch hlt b hb
      simp only [batchChunks] at hb
      by_cases hfl : batchSize ≤ (batch ++ [r]).length
      · rw [if_pos hfl] at hb
        rcases List.mem_cons.mp hb with rfl | hb'
        · simp only [List.length_append, List.length_singleton] at hfl ⊢
          omega
        · exact ih [] (by simpa using hbs) b hb'
      · rw [if_neg hfl] at hb
        refine ih (batch ++ [r]) ?_ b hb
        simp only [List.length_append, List.length_singleton] at hfl ⊢
        omega

/-- C5: for every file whose bulk-copy load fails: the transaction is
rolled back; exactly one fallback attempt is made when the failure message
is characteristic of COPY, and none otherwise (the file then fails);
with a positive batch size the fallback inserts batches of at most
`batch_size` (nonempty) rows; a fallback failure marks the file failed; and
the sequential orchestrator still produces every sibling file's full trace
(one file's failure never aborts sibling files). -/
theorem copy_failure_fallback (batchSize : ℕ) (f : FileEnv) (msg : String)
    (hc : f.copyResult = Except.error msg) :
    Ev.rollbackEv ∈ (import_single_file batchSize f).2
    ∧ (import_single_file batchSize f).2.countP isFallbackStart
        = (if strContains msg "COPY" then 1 else 0)
    ∧ (strContains msg "COPY" = false → (import_single_file batchSize f).1 = false)
    ∧ (1 ≤ batchSize → ∀ b ∈ batchChunks batchSize f.rows [],
        1 ≤ b.length ∧ b.length ≤ batchSize)
    ∧ (∀ k, f.fallbackFailAt = some k → k < (batchChunks batchSize f.rows []).length →
        (import_single_file batchSize f).1 = false)
    ∧ (∀ xs ys : List FileEnv,
        (import_files_sequential batchSize (xs ++ f :: ys)).2
          = (xs.map (fun g => (import_single_file batchSize g).2)).flatten
            ++ (import_single_file batchSize f).2
            ++ (ys.map (fun g => (import_single_file batchSize g).2)).flatten) := by
  refine ⟨?_, ?_, ?_, ?_, ?_, ?_⟩
  · by_cases hcopy : strContains msg "COPY" <;> simp [import_single_file, hc, hcopy]
  · by_cases hcopy : strContains msg "COPY" <;>
      simp [import_single_file, hc, hcopy, List.countP_append, List.countP_cons,
        import_with_batch_insert_no_fallback, isFallbackStart, List.countP_eq_zero]
  · intro hcopy
    simp [import_single_file, hc, hcopy]
  · intro hbs
    exact batchChunks_length_le batchSize hbs f.rows [] (by simpa using hbs)
  · intro k hfa hk
    by_cases hcopy : strContains msg "COPY"
    · simp [import_single_file, hc, hcopy, import_with_batch_insert, hfa, hk]
    · simp [import_single_file, hc, hcopy]
  · intro xs ys
    simp [import_files_sequential, List.map_append, List.flatten_append]

/-- A file whose COPY fails with a COPY-characteristic message and whose
fallback is interrupted at its first batch. -/
def envFallbackFail : FileEnv :=
  ⟨"c.csv", 7, [["x"], ["y"], ["z"]], Except.error "COPY data err", some 0⟩

/-- Witness for C5: on a concrete file whose COPY fails with a message
containing COPY, exactly one fallback attempt is made, and since the
fallback itself fails the file is marked failed. -/
theorem copy_failure_fallback_witness :
    (import_single_file 2 envFallbackFail).2.countP isFallbackStart = 1
    ∧ (import_single_file 2 envFallbackFail).1 = false := by
  have h := copy_failure_fallback 2 envFallbackFail "COPY data err" rfl
  refine ⟨?_, h.2.2.2.2.1 0 rfl (by decide)⟩
  rw [h.2.1]
  decide

theorem bytesAdded_append (t1 t2 : List Ev) :
    bytesAdded (t1 ++ t2) = bytesAdded t1 + bytesAdded t2 := by
  simp [bytesAdded]

theorem rowsAdded_append (t1 t2 : List Ev) :
    rowsAdded (t1 ++ t2) = rowsAdded t1 + rowsAdded t2 := by
  simp [rowsAdded]

/-- Batch traces record no bytes. -/
theorem batchTrace_bytes (batches : List (List Row)) :
    bytesAdded ((batches.map batchEvents).flatten) = 0 := by
  induction batches with
  | nil => rfl
  | cons b rest ih =>
      simp only [List.map_cons, List.flatten_cons, bytesAdded_append, ih]
      simp [batchEvents, bytesAdded]

/-- Batch traces record exactly the batch sizes as rows. -/
theorem batchTrace_rows (batches : List (List Row)) :
    rowsAdded ((batches.map batchEvents).flatten) = (batches.map List.length).sum := by
  induction batches with
  | nil => rfl
  | cons b rest ih =>
      simp only [List.map_cons, List.flatten_cons, rowsAdded_append, ih, List.sum_cons]
      simp [batchEvents, rowsAdded]

/-- The buffering loop conserves records: the emitted batch sizes sum to
the input records plus the open buffer. -/
theorem batchChunks_sum (batchSize : ℕ) :
    ∀ (rows batch : List Row),
      ((batchChunks batchSize rows batch).map List.length).sum
        = rows.length + batch.length := by
  intro rows
  induction rows with
  | nil =>
      intro batch
      by_cases he : batch.isEmpty
      · rw [List.isEmpty_iff] at he
        simp [batchChunks, he]
      · simp [batchChunks, he]
  | cons r rest ih =>
      intro batch
      simp only [batchChunks]
      by_cases hfl : batchSize ≤ (batch ++ [r]).length
      · rw [if_pos hfl]
        simp only [List.map_cons, List.sum_cons, ih []]
        simp only [List.length_append, List.length_singleton, List.length_cons,
          List.length_nil] at hfl ⊢
        omega
      · rw [if_neg hfl]
        rw [ih (batch ++ [r])]
        simp only [List.length_append, List.length_singleton, List.length_cons,
          List.length_nil] at hfl ⊢
        omega

/-- The fallback records no bytes at all. -/
theorem import_with_batch_insert_bytes (batchSize : ℕ) (f : FileEnv) :
    bytesAdded (import_with_batch_insert batchSize f).2 = 0 := by
  cases hfa : f.fallbackFailAt with
  | none =>
      simp only [import_with_batch_insert, hfa]
      rw [bytesAdded_append, batchTrace_bytes]
      rfl
  | some k =>
      by_cases hk : k < (batchChunks batchSize f.rows []).length
      · simp only [import_with_batch_insert, hfa, hk, if_true]
        rw [bytesAdded_append, batchTrace_bytes]
        rfl
      · simp only [import_with_batch_insert, hfa, hk, if_false]
        rw [bytesAdded_append, batchTrace_bytes]
        rfl

/-- A successful fallback records exactly the file's record count as rows. -/
theorem import_with_batch_insert_rows (batchSize : ℕ) (f : FileEnv)
    (h : (import_with_batch_insert batchSize f).1 = true) :
    rowsAdded (import_with_batch_insert batchSize f).2 = f.rows.length := by
  cases hfa : f.fallbackFailAt with
  | none =>
      simp only [import_with_batch_insert, hfa]
      rw [rowsAdded_append, batchTrace_rows, batchChunks_sum]
      simp [rowsAdded]
  | some k =>
      by_cases hk : k < (batchChunks batchSize f.rows []).length
      · rw [show (import_with_batch_insert batchSize f).1 = false by
          simp only [import_with_batch_insert, hfa, hk, if_true]] at h
        exact absurd h (by simp)
      · simp only [import_with_batch_insert, hfa, hk, if_false]
        rw [rowsAdded_append, batchTrace_rows, batchChunks_sum]
        simp [rowsAdded]

/-- Bytes recorded for one file: the file's size when COPY itself
succeeded, zero otherwise. -/
theorem import_single_file_bytes (batchSize : ℕ) (f : FileEnv) :
    bytesAdded (import_single_file batchSize f).2 = if copyOk f then f.size else 0 := by
  cases hc : f.copyResult with
  | ok n => simp [import_single_file, hc, copyOk, bytesAdded]
  | error msg =>
      have hok : copyOk f = false := by simp [copyOk, hc]
      rw [hok, if_neg (by simp)]
      by_cases hcopy : strContains msg "COPY"
      · simp only [import_single_file, hc, hcopy, if_true]
        rw [bytesAdded_append, bytesAdded_append, import_with_batch_insert_bytes]
        rfl
      · simp only [import_single_file, hc, hcopy, if_false]
        rfl

/-- A file whose COPY succeeded is reported as successfully imported. -/
theorem copyOk_success (batchSize : ℕ) (f : FileEnv) (h : copyOk f = true) :
    (import_single_file batchSize f).1 = true := by
  unfold copyOk at h
  cases hc : f.copyResult with
  | ok n => simp [import_single_file, hc]
  | error msg => rw [hc] at h; exact absurd h (by simp)

/-- Job-level byte accounting: the tracker's byte counter equals the summed
sizes of the files whose COPY path itself succeeded. -/
theorem import_files_sequential_bytes (batchSize : ℕ) (files : List FileEnv) :
    bytesAdded (import_files_sequential batchSize files).2
      = (files.map (fun g => if copyOk g then g.size else 0)).sum := by
  induction files with
  | nil => rfl
  | cons f rest ih =>
      simp only [import_files_sequential, List.map_cons, List.flatten_cons,
        bytesAdded_append, List.sum_cons] at ih ⊢
      rw [import_single_file_bytes, ih]

theorem sum_filter_size (p : FileEnv → Bool) (l : List FileEnv) :
    ((l.filter p).map FileEnv.size).sum
      = (l.map (fun g => if p g then g.size else 0)).sum := by
  induction l with
  | nil => rfl
  | cons g0 gs ihg => by_cases h : p g0 <;> simp [List.filter_cons, h, ihg]

/-- A file counted as successfully imported through the batch-insert
fallback: its COPY failed with a COPY-characteristic message and the
overall per-file result is success. -/
def succeededViaFallback (batchSize : ℕ) (f : FileEnv) : Prop :=
  (∃ msg, f.copyResult = Except.error msg ∧ strContains msg "COPY" = true)
  ∧ (import_single_file batchSize f).1 = true

/-- C10: a file imported through the batch-insert fallback increments only
the ProgressTracker's row counter (by its record count) and leaves the byte
counter unchanged — bytes are recorded only by the successful COPY path —
so a job of positive-size files in which some file succeeded via the
fallback reports strictly fewer bytes than the total size of the
successfully imported files. -/
theorem fallback_rows_only (batchSize : ℕ) (f : FileEnv)
    (hf : succeededViaFallback batchSize f) :
    bytesAdded (import_single_file batchSize f).2 = 0
    ∧ rowsAdded (import_single_file batchSize f).2 = f.rows.length
    ∧ ∀ files : List FileEnv, f ∈ files → (∀ g ∈ files, 0 < g.size) →
        bytesAdded (import_files_sequential batchSize files).2
          < ((files.filter (fun g => (import_single_file batchSize g).1)).map
              FileEnv.size).sum := by
  obtain ⟨⟨msg, hc, hcopy⟩, hsucc⟩ := hf
  have hnotok : copyOk f = false := by simp [copyOk, hc]
  have hfb : (import_with_batch_insert batchSize f).1 = true := by
    simpa [import_single_file, hc, hcopy] using hsucc
  refine ⟨?_, ?_, ?_⟩
  · rw [import_single_file_bytes, hnotok]
    rfl
  · have htrace : (import_single_file batchSize f).2
        = [Ev.getconn, Ev.setTimeout, Ev.copyAttempt f.path, Ev.rollbackEv,
           Ev.fallbackStart f.path] ++ (import_with_batch_insert batchSize f).2
          ++ [Ev.putconn] := by
      simp [import_single_file, hc, hcopy]
    rw [htrace, rowsAdded_append, rowsAdded_append,
      import_with_batch_insert_rows batchSize f hfb]
    simp [rowsAdded]
  · intro files hmem hpos
    obtain ⟨xs, ys, rfl⟩ := List.append_of_mem hmem
    have hxs : ((xs.map (fun g => if copyOk g then g.size else 0)).sum)
        ≤ ((xs.map (fun g => if (import_single_file batchSize g).1 then g.size else 0)).sum) := by
      refine List.sum_le_sum ?_
      intro g _
      by_cases h : copyOk g
      · rw [if_pos h, if_pos (copyOk_success batchSize g h)]
      · simp [h]
    have hys : ((ys.map (fun g => if copyOk g then g.size else 0)).sum)
        ≤ ((ys.map (fun g => if (import_single_file batchSize g).1 then g.size else 0)).sum) := by
      refine List.sum_le_sum ?_
      intro g _
      by_cases h : copyOk g
      · rw [if_pos h, if_pos (copyOk_success batchSize g h)]
      · simp [h]
    have hfpos : 0 < f.size := hpos f (by simp)
    rw [import_files_sequential_bytes, sum_filter_size]
    simp only [List.map_append, List.sum_append, List.map_cons, List.sum_cons,
      hnotok, hsucc]
    rw [if_neg (by simp), if_pos trivial]
    omega

/-- A file whose COPY fails with a COPY-characteristic message and whose
fallback succeeds over three records. -/
def envFallbackOk : FileEnv :=
  ⟨"d.csv", 11, [["u"], ["v"], ["w"]], Except.error "COPY parse error", none⟩

/-- Witness for C10: a concrete one-file job succeeding via the fallback
records zero bytes, and reports fewer bytes than the size of its
successfully imported file. -/
theorem fallback_rows_only_witness :
    bytesAdded (import_single_file 2 envFallbackOk).2 = 0
    ∧ bytesAdded (import_files_sequential 2 [envFallbackOk]).2
        < (([envFallbackOk].filter (fun g => (import_single_file 2 g).1)).map
            FileEnv.size).sum := by
  have h := fallback_rows_only 2 envFallbackOk
    ⟨⟨"COPY parse error", rfl, by decide⟩, by decide⟩
  exact ⟨h.1, h.2.2 [envFallbackOk] (by decide) (by decide)⟩
